import Mathlib

set_option maxRecDepth 10000

/-!
Shallow embedding of the rusty-axml binary XML (AXML) decoder.

The definitions below are translated from the Rust sources:
`src/chunk_types.rs`, `src/chunk_header.rs`, `src/string_pool.rs`,
`src/resource_map.rs` and `src/parser.rs`.  A byte buffer is a `List Nat`
(each byte taken modulo 256 at read time); a cursor is the buffer plus an
explicit position.  Rust panics (`panic!`, `.unwrap()`, `.expect(..)`) and
`Err` returns are both modelled as `Except.error` values of `FormatError`;
the one place where the distinction matters is the main dispatch loop of
`parse_xml`, where a failed 2-byte tag read (an end-of-input `Err` from
`read_u16`) terminates the loop normally while every other failure is fatal.
-/

namespace Axml

/-- A byte buffer: the `Vec<u8>` inside the Rust `Cursor<Vec<u8>>`. -/
abbrev Buf := List Nat

/-- Error kinds of the decoder.  Each constructor corresponds to one failure
site in the Rust code (a panic, an `expect`, an `unwrap` or an `Err`). -/
inductive FormatError where
  /-- A read past the end of the buffer (`read_u8`/`read_u16`/`read_u32` failing). -/
  | truncatedInput
  /-- `ChunkType::parse_block_type` hit a 2-byte value outside the known set. -/
  | unknownChunkType (tag : Nat)
  /-- Embedding of `ChunkHeader::from_buff`: decoded tag differs from the expected one. -/
  | unexpectedChunkType
  /-- Embedding of `ChunkHeader::from_buff`: `header_size < 8`. -/
  | headerTooSmall
  /-- Embedding of `ChunkHeader::from_buff`: `chunk_size < 8`. -/
  | chunkTooSmall
  /-- Embedding of `ChunkHeader::from_buff`: `chunk_size < header_size`. -/
  | chunkSmallerThanHeader
  /-- A string-pool index with no backing entry (`strings.get(i).unwrap()`). -/
  | stringIndexOutOfRange (idx : Nat)
  /-- An attribute namespace URI with no registered prefix in the namespace table. -/
  | unresolvedNamespace
  /-- A typed-value `data_type` byte outside the known set. -/
  | unknownValueType (v : Nat)
  /-- Invalid UTF-8 or UTF-16 data in a string-pool entry. -/
  | invalidTextEncoding
  /-- `stack.last().unwrap()` on an empty open-element stack in `parse_xml`. -/
  | noOpenElement
  /-- Reserved: the loop fuel of the embedding ran out (unreachable for any
  buffer, since every loop iteration advances the cursor by at least 2). -/
  | outOfFuel
  deriving DecidableEq, Repr

/-- Read one byte at position `p`; bytes are normalized modulo 256. -/
def readU8 (b : Buf) (p : Nat) : Except FormatError (Nat × Nat) :=
  match b.get? p with
  | some v => .ok (v % 256, p + 1)
  | none => .error .truncatedInput

/-- Read a little-endian `u16` (byteorder `read_u16::<LittleEndian>`). -/
def readU16 (b : Buf) (p : Nat) : Except FormatError (Nat × Nat) :=
  match readU8 b p with
  | .error e => .error e
  | .ok (lo, p1) =>
    match readU8 b p1 with
    | .error e => .error e
    | .ok (hi, p2) => .ok (lo + 256 * hi, p2)

/-- Read a little-endian `u32` (byteorder `read_u32::<LittleEndian>`). -/
def readU32 (b : Buf) (p : Nat) : Except FormatError (Nat × Nat) :=
  match readU16 b p with
  | .error e => .error e
  | .ok (lo, p1) =>
    match readU16 b p1 with
    | .error e => .error e
    | .ok (hi, p2) => .ok (lo + 65536 * hi, p2)

/-- Read `n` consecutive little-endian `u32` values. -/
def readU32s (b : Buf) : Nat → Nat → Except FormatError (List Nat × Nat)
  | 0, p => .ok ([], p)
  | n + 1, p =>
    match readU32 b p with
    | .error e => .error e
    | .ok (v, p1) =>
      match readU32s b n p1 with
      | .error e => .error e
      | .ok (vs, p2) => .ok (v :: vs, p2)

/-- Read `n` consecutive little-endian `u16` values. -/
def readU16s (b : Buf) : Nat → Nat → Except FormatError (List Nat × Nat)
  | 0, p => .ok ([], p)
  | n + 1, p =>
    match readU16 b p with
    | .error e => .error e
    | .ok (v, p1) =>
      match readU16s b n p1 with
      | .error e => .error e
      | .ok (vs, p2) => .ok (v :: vs, p2)

/-- Chunk type identifiers (`src/chunk_types.rs`, enum `ChunkType`). -/
inductive ChunkType where
  | ResNullType
  | ResStringPoolType
  | ResTableType
  | ResXmlType
  | ResXmlStartNamespaceType
  | ResXmlEndNamespaceType
  | ResXmlStartElementType
  | ResXmlEndElementType
  | ResXmlCDataType
  | ResXmlLastChunkType
  | ResXmlResourceMapType
  | ResTablePackageType
  | ResTableTypeType
  | ResTableTypeSpecType
  | ResTableLibraryType
  deriving DecidableEq, Repr

/-- The numeric tag of each chunk type (`src/chunk_types.rs`). -/
def ChunkType.ofTag : Nat → Option ChunkType
  | 0x0000 => some .ResNullType
  | 0x0001 => some .ResStringPoolType
  | 0x0002 => some .ResTableType
  | 0x0003 => some .ResXmlType
  | 0x0100 => some .ResXmlStartNamespaceType
  | 0x0101 => some .ResXmlEndNamespaceType
  | 0x0102 => some .ResXmlStartElementType
  | 0x0103 => some .ResXmlEndElementType
  | 0x0104 => some .ResXmlCDataType
  | 0x017f => some .ResXmlLastChunkType
  | 0x0180 => some .ResXmlResourceMapType
  | 0x0200 => some .ResTablePackageType
  | 0x0201 => some .ResTableTypeType
  | 0x0202 => some .ResTableTypeSpecType
  | 0x0203 => some .ResTableLibraryType
  | _ => none

/-- Embedding of `ChunkType::parse_block_type`: read a 2-byte little-endian tag and map it
to a `ChunkType`.  A read failure is returned as `truncatedInput` (the Rust
`Err` that the `parse_xml` loop treats as normal end of input); an unknown
2-byte value is the Rust `panic!`, modelled as `unknownChunkType`. -/
def ChunkType.parse_block_type (b : Buf) (p : Nat) : Except FormatError (ChunkType × Nat) :=
  match readU16 b p with
  | .error e => .error e
  | .ok (raw, p1) =>
    match ChunkType.ofTag raw with
    | some ct => .ok (ct, p1)
    | none => .error (.unknownChunkType raw)

/-- Chunk header (`src/chunk_header.rs`, struct `ChunkHeader`). -/
structure ChunkHeader where
  chunk_type : ChunkType
  header_size : Nat
  chunk_size : Nat
  deriving DecidableEq, Repr

/-- Embedding of `ChunkHeader::from_buff`: decode tag, header size, chunk size; check the
expected tag and the three size invariants (each panic is a distinct error). -/
def ChunkHeader.from_buff (b : Buf) (p : Nat) (expected : ChunkType) :
    Except FormatError (ChunkHeader × Nat) :=
  match ChunkType.parse_block_type b p with
  | .error e => .error e
  | .ok (ct, p1) =>
    if ct = expected then
      match readU16 b p1 with
      | .error e => .error e
      | .ok (hs, p2) =>
        match readU32 b p2 with
        | .error e => .error e
        | .ok (cs, p3) =>
          if hs < 8 then .error .headerTooSmall
          else if cs < 8 then .error .chunkTooSmall
          else if cs < hs then .error .chunkSmallerThanHeader
          else .ok (⟨ct, hs, cs⟩, p3)
    else .error .unexpectedChunkType

/-- Decode a UTF-16 code-unit sequence (`std::char::decode_utf16` collected
into a `Result<String, _>`): surrogate pairs are combined, a lone surrogate
is a decode failure. -/
def utf16Decode : List Nat → Except FormatError (List Char)
  | [] => .ok []
  | u :: rest =>
    if u < 0xD800 || 0xE000 ≤ u then
      match utf16Decode rest with
      | .error e => .error e
      | .ok cs => .ok (Char.ofNat u :: cs)
    else if u < 0xDC00 then
      match rest with
      | [] => .error .invalidTextEncoding
      | v :: rest2 =>
        if 0xDC00 ≤ v && v < 0xE000 then
          match utf16Decode rest2 with
          | .error e => .error e
          | .ok cs => .ok (Char.ofNat (0x10000 + (u - 0xD800) * 0x400 + (v - 0xDC00)) :: cs)
        else .error .invalidTextEncoding
    else .error .invalidTextEncoding

/-- Decode a UTF-8 byte sequence (`String::from_utf8`): the standard
validation, rejecting continuation-byte errors, overlong forms, surrogate
code points and values above `0x10FFFF`. -/
def utf8Decode : List Nat → Except FormatError (List Char)
  | [] => .ok []
  | c0 :: rest =>
    if c0 < 0x80 then
      match utf8Decode rest with
      | .error e => .error e
      | .ok cs => .ok (Char.ofNat c0 :: cs)
    else if c0 < 0xC2 then .error .invalidTextEncoding
    else if c0 < 0xE0 then
      match rest with
      | c1 :: rest1 =>
        if 0x80 ≤ c1 && c1 < 0xC0 then
          match utf8Decode rest1 with
          | .error e => .error e
          | .ok cs => .ok (Char.ofNat ((c0 - 0xC0) * 64 + (c1 - 0x80)) :: cs)
        else .error .invalidTextEncoding
      | _ => .error .invalidTextEncoding
    else if c0 < 0xF0 then
      match rest with
      | c1 :: c2 :: rest2 =>
        let lo1 := if c0 = 0xE0 then 0xA0 else 0x80
        let hi1 := if c0 = 0xED then 0xA0 else 0xC0
        if lo1 ≤ c1 && c1 < hi1 && 0x80 ≤ c2 && c2 < 0xC0 then
          match utf8Decode rest2 with
          | .error e => .error e
          | .ok cs =>
            .ok (Char.ofNat ((c0 - 0xE0) * 4096 + (c1 - 0x80) * 64 + (c2 - 0x80)) :: cs)
        else .error .invalidTextEncoding
      | _ => .error .invalidTextEncoding
    else if c0 < 0xF5 then
      match rest with
      | c1 :: c2 :: c3 :: rest3 =>
        let lo1 := if c0 = 0xF0 then 0x90 else 0x80
        let hi1 := if c0 = 0xF4 then 0x90 else 0xC0
        if lo1 ≤ c1 && c1 < hi1 && 0x80 ≤ c2 && c2 < 0xC0 && 0x80 ≤ c3 && c3 < 0xC0 then
          match utf8Decode rest3 with
          | .error e => .error e
          | .ok cs =>
            .ok (Char.ofNat ((c0 - 0xF0) * 262144 + (c1 - 0x80) * 4096 +
                  (c2 - 0x80) * 64 + (c3 - 0x80)) :: cs)
        else .error .invalidTextEncoding
      | _ => .error .invalidTextEncoding
    else .error .invalidTextEncoding

/-- Read up to `n` raw bytes starting at `p` (the Rust
`axml_buff.take(n).read_to_end(..)`, which stops early at end of input
without an error). -/
def readBytesUpTo (b : Buf) (n p : Nat) : List Nat × Nat :=
  let k := min n (b.length - p)
  (((b.drop p).take k).map (· % 256), p + k)

/-- Decode one string-pool entry whose data starts at absolute position
`start` (`initial_offset + strings_start + offset` in `StringPool::from_buff`).
Returns the declared size, the decoded string, and the cursor position after
the entry's data.  For a UTF-8 pool the entry is an encoded-length byte, a
decoded-length byte, then that many bytes of UTF-8; for a UTF-16 pool it is a
16-bit unit count then that many 16-bit units (the terminator is not read). -/
def decodeStringEntry (b : Buf) (is_utf8 : Bool) (start : Nat) :
    Except FormatError (Nat × String × Nat) :=
  if is_utf8 then
    match readU8 b start with
    | .error e => .error e
    | .ok (_encoded_size, p1) =>
      match readU8 b p1 with
      | .error e => .error e
      | .ok (sz, p2) =>
        let (bytes, p3) := readBytesUpTo b sz p2
        match utf8Decode bytes with
        | .error e => .error e
        | .ok cs => .ok (sz, String.mk cs, p3)
  else
    match readU16 b start with
    | .error e => .error e
    | .ok (sz, p1) =>
      match readU16s b sz p1 with
      | .error e => .error e
      | .ok (units, p2) =>
        match utf16Decode units with
        | .error e => .error e
        | .ok cs => .ok (sz, String.mk cs, p2)

/-- The per-offset string loop of `StringPool::from_buff`: for each offset,
seek to `base + offset` (`base` is `initial_offset + strings_start`), decode
the entry, and push the string onto the global list only when its declared
size is positive.  The incoming cursor position of each iteration is ignored
(the Rust code calls `set_position` before every entry). -/
def decode_strings (b : Buf) (is_utf8 : Bool) (base : Nat) :
    List Nat → List String → Nat → Except FormatError (List String × Nat)
  | [], g, p => .ok (g, p)
  | off :: rest, g, _p =>
    match decodeStringEntry b is_utf8 (base + off) with
    | .error e => .error e
    | .ok (sz, s, p1) =>
      decode_strings b is_utf8 base rest (if 0 < sz then g ++ [s] else g) p1

/-- String pool structure (`src/string_pool.rs`, struct `StringPool`). -/
structure StringPool where
  header : ChunkHeader
  string_count : Nat
  style_count : Nat
  is_sorted : Bool
  is_utf8 : Bool
  strings_start : Nat
  styles_start : Nat
  strings_offsets : List Nat
  styles_offsets : List Nat
  strings : List String
  deriving DecidableEq, Repr

/-- Embedding of `StringPool::from_buff`: the cursor arrives just past the 2-byte tag; the
function rewinds by 2, validates the chunk header, reads the pool header
fields and the offset arrays, then decodes each string entry, appending
non-empty entries to the caller's global string list.  Returns the pool
structure, the extended global list (the Rust code mutates it in place) and
the final cursor position. -/
def StringPool.from_buff (b : Buf) (pos : Nat) (global_strings : List String) :
    Except FormatError (StringPool × List String × Nat) :=
  let initial_offset := pos - 2
  match ChunkHeader.from_buff b initial_offset .ResStringPoolType with
  | .error e => .error e
  | .ok (header, p1) =>
    match readU32 b p1 with
    | .error e => .error e
    | .ok (string_count, p2) =>
      match readU32 b p2 with
      | .error e => .error e
      | .ok (style_count, p3) =>
        match readU32 b p3 with
        | .error e => .error e
        | .ok (flags, p4) =>
          let is_sorted := Nat.testBit flags 0
          let is_utf8 := Nat.testBit flags 8
          match readU32 b p4 with
          | .error e => .error e
          | .ok (strings_start, p5) =>
            match readU32 b p5 with
            | .error e => .error e
            | .ok (styles_start, p6) =>
              match readU32s b string_count p6 with
              | .error e => .error e
              | .ok (strings_offsets, p7) =>
                match readU32s b style_count p7 with
                | .error e => .error e
                | .ok (styles_offsets, p8) =>
                  match decode_strings b is_utf8 (initial_offset + strings_start)
                      strings_offsets global_strings p8 with
                  | .error e => .error e
                  | .ok (g1, p9) =>
                    .ok (⟨header, string_count, style_count, is_sorted, is_utf8,
                          strings_start, styles_start, strings_offsets,
                          styles_offsets, g1⟩, g1, p9)

/-- Lookup in a string-keyed association map (the embedding of
`HashMap<String, String>::get`). -/
def mapLookup (m : List (String × String)) (k : String) : Option String :=
  match m with
  | [] => none
  | (k1, v) :: rest => if k1 = k then some v else mapLookup rest k

/-- Insert into a string-keyed association map, replacing the value of an
existing key (the embedding of `HashMap<String, String>::insert`). -/
def mapInsert (m : List (String × String)) (k v : String) : List (String × String) :=
  match m with
  | [] => [(k, v)]
  | (k1, v1) :: rest => if k1 = k then (k, v) :: rest else (k1, v1) :: mapInsert rest k v

/-- Embedding of `parse_start_namespace` (`src/parser.rs`): rewind 2 bytes, validate the
header, read line number and comment (discarded) then the prefix and URI
string indices, and insert URI-string to prefix-string into the namespace
table.  An index without a pool entry is the Rust `.unwrap()` panic. -/
def parse_start_namespace (b : Buf) (pos : Nat) (strings : List String)
    (namespaces : List (String × String)) :
    Except FormatError (List (String × String) × Nat) :=
  match ChunkHeader.from_buff b (pos - 2) .ResXmlStartNamespaceType with
  | .error e => .error e
  | .ok (_header, p1) =>
    match readU32 b p1 with
    | .error e => .error e
    | .ok (_line_number, p2) =>
      match readU32 b p2 with
      | .error e => .error e
      | .ok (_comment, p3) =>
        match readU32 b p3 with
        | .error e => .error e
        | .ok (pfx, p4) =>
          match readU32 b p4 with
          | .error e => .error e
          | .ok (uri, p5) =>
            match strings.get? pfx with
            | none => .error (.stringIndexOutOfRange pfx)
            | some pfx_str =>
              match strings.get? uri with
              | none => .error (.stringIndexOutOfRange uri)
              | some uri_str => .ok (mapInsert namespaces uri_str pfx_str, p5)

/-- Embedding of `parse_end_namespace` (`src/parser.rs`): rewind 2 bytes, validate the
header, read and discard line number, comment, prefix and URI. -/
def parse_end_namespace (b : Buf) (pos : Nat) : Except FormatError Nat :=
  match ChunkHeader.from_buff b (pos - 2) .ResXmlEndNamespaceType with
  | .error e => .error e
  | .ok (_header, p1) =>
    match readU32 b p1 with
    | .error e => .error e
    | .ok (_line_number, p2) =>
      match readU32 b p2 with
      | .error e => .error e
      | .ok (_comment, p3) =>
        match readU32 b p3 with
        | .error e => .error e
        | .ok (_pfx, p4) =>
          match readU32 b p4 with
          | .error e => .error e
          | .ok (_uri, p5) => .ok p5

/-- Typed-value type tags.  Modelled from the spec: `data_value_type.rs`
(enum `DataValueType`) is not under src/; its variants are those matched in
`parse_start_element` (src/parser.rs lines 179-206) and listed in spec section 3,
and the numeric byte of each variant follows the Android resource typed-value
convention the format encodes. -/
inductive DataValueType where
  | TypeNull
  | TypeReference
  | TypeAttribute
  | TypeString
  | TypeFloat
  | TypeDimension
  | TypeFraction
  | TypeDynamicReference
  | TypeDynamicAttribute
  | TypeIntDec
  | TypeIntHex
  | TypeIntBoolean
  | TypeIntColorArgb8
  | TypeIntColorRgb8
  | TypeIntColorArgb4
  | TypeIntColorRgb4
  deriving DecidableEq, Repr

/-- Modelled from the spec: the byte-to-variant mapping of the typed-value
`data_type` byte (spec section 4.5; `data_value_type.rs` is not under src/). -/
def DataValueType.ofByte : Nat → Option DataValueType
  | 0x00 => some .TypeNull
  | 0x01 => some .TypeReference
  | 0x02 => some .TypeAttribute
  | 0x03 => some .TypeString
  | 0x04 => some .TypeFloat
  | 0x05 => some .TypeDimension
  | 0x06 => some .TypeFraction
  | 0x07 => some .TypeDynamicReference
  | 0x08 => some .TypeDynamicAttribute
  | 0x10 => some .TypeIntDec
  | 0x11 => some .TypeIntHex
  | 0x12 => some .TypeIntBoolean
  | 0x1c => some .TypeIntColorArgb8
  | 0x1d => some .TypeIntColorRgb8
  | 0x1e => some .TypeIntColorArgb4
  | 0x1f => some .TypeIntColorRgb4
  | _ => none

/-- Typed value structure.  Modelled from the spec: `res_value.rs`
(struct `ResValue`) is not under src/; spec section 4.5 gives its fields
`size: u16`, `res0: u8`, `data_type: u8`, `data: u32`. -/
structure ResValue where
  size : Nat
  res0 : Nat
  data_type : DataValueType
  data : Nat
  deriving DecidableEq, Repr

/-- Modelled from the spec: `ResValue::from_buff` (`res_value.rs` is not
under src/); spec section 4.5: decode `size: u16`, `res0: u8`, `data_type: u8`,
`data: u32`, failing with `UnknownValueType` on an unknown type byte. -/
def ResValue.from_buff (b : Buf) (pos : Nat) : Except FormatError (ResValue × Nat) :=
  match readU16 b pos with
  | .error e => .error e
  | .ok (size, p1) =>
    match readU8 b p1 with
    | .error e => .error e
    | .ok (res0, p2) =>
      match readU8 b p2 with
      | .error e => .error e
      | .ok (dt, p3) =>
        match readU32 b p3 with
        | .error e => .error e
        | .ok (data, p4) =>
          match DataValueType.ofByte dt with
          | some t => .ok (⟨size, res0, t, data⟩, p4)
          | none => .error (.unknownValueType dt)

/-- Rust `format!("{:x}", n)`: lowercase hexadecimal with no leading zeros. -/
def rustHex (n : Nat) : String := (Nat.toDigits 16 n).asString

/-- The typed-value rendering match of `parse_start_element`
(src/parser.rs lines 178-207).  The `TODO` arms only print a message and leave
the value string empty. -/
def renderTypedValue (rv : ResValue) : String :=
  match rv.data_type with
  | .TypeNull => ""
  | .TypeReference => "type1/" ++ toString rv.data
  | .TypeAttribute => ""
  | .TypeString => ""
  | .TypeFloat => ""
  | .TypeDimension => ""
  | .TypeFraction => ""
  | .TypeDynamicReference => ""
  | .TypeDynamicAttribute => ""
  | .TypeIntDec => toString rv.data
  | .TypeIntHex => "0x" ++ rustHex rv.data
  | .TypeIntBoolean => if rv.data = 0 then "false" else "true"
  | .TypeIntColorArgb8 => ""
  | .TypeIntColorRgb8 => ""
  | .TypeIntColorArgb4 => ""
  | .TypeIntColorRgb4 => ""

/-- The raw fields of one attribute record inside a start-element chunk
(src/parser.rs lines 157-160). -/
structure AttrFields where
  attr_namespace : Nat
  attr_name : Nat
  attr_raw_val : Nat
  typed : ResValue
  deriving DecidableEq, Repr

/-- Read the raw fields of one attribute: three `u32` indices followed by the
8-byte typed value (src/parser.rs lines 157-160). -/
def decodeAttrRaw (b : Buf) (pos : Nat) : Except FormatError (AttrFields × Nat) :=
  match readU32 b pos with
  | .error e => .error e
  | .ok (ans, p1) =>
    match readU32 b p1 with
    | .error e => .error e
    | .ok (anm, p2) =>
      match readU32 b p2 with
      | .error e => .error e
      | .ok (araw, p3) =>
        match ResValue.from_buff b p3 with
        | .error e => .error e
        | .ok (rv, p4) => .ok (⟨ans, anm, araw, rv⟩, p4)

/-- Build the decoded key and value of one attribute from its raw fields
(src/parser.rs lines 162-212): the key is `prefix ++ ":" ++ name` when the
namespace field is not the `0xFFFFFFFF` sentinel (missing prefix is fatal) and
the bare name otherwise; the value is the string-pool entry at `raw_value`
when that is not the sentinel, and the typed-value rendering otherwise. -/
def renderAttr (strings : List String) (namespaces : List (String × String))
    (f : AttrFields) : Except FormatError (String × String) :=
  match (if f.attr_namespace ≠ 0xffffffff then
           match strings.get? f.attr_namespace with
           | none => Except.error (FormatError.stringIndexOutOfRange f.attr_namespace)
           | some uri_str =>
             match mapLookup namespaces uri_str with
             | none => Except.error FormatError.unresolvedNamespace
             | some px => Except.ok (px ++ ":")
         else Except.ok "") with
  | .error e => .error e
  | .ok keyStart =>
    match strings.get? f.attr_name with
    | none => .error (.stringIndexOutOfRange f.attr_name)
    | some name_str =>
      let key := keyStart ++ name_str
      match (if f.attr_raw_val ≠ 0xffffffff then
               match strings.get? f.attr_raw_val with
               | none => Except.error (FormatError.stringIndexOutOfRange f.attr_raw_val)
               | some s => Except.ok s
             else Except.ok (renderTypedValue f.typed)) with
      | .error e => .error e
      | .ok val => .ok (key, val)

/-- The attribute loop of `parse_start_element` (src/parser.rs lines 156-213):
decode `attribute_count` attributes, inserting each decoded key-value pair
into the attribute map. -/
def parse_attrs (b : Buf) (strings : List String) (namespaces : List (String × String)) :
    Nat → List (String × String) → Nat → Except FormatError (List (String × String) × Nat)
  | 0, attrs, p => .ok (attrs, p)
  | n + 1, attrs, p =>
    match decodeAttrRaw b p with
    | .error e => .error e
    | .ok (f, p1) =>
      match renderAttr strings namespaces f with
      | .error e => .error e
      | .ok (k, v) => parse_attrs b strings namespaces n (mapInsert attrs k v) p1

/-- Embedding of `parse_start_element` (`src/parser.rs`): rewind 2 bytes, validate the
header, read line number, comment, namespace, name, attribute size (all but
the name discarded), `attribute_count: u16` and the three reserved `u16`
indices, resolve the element type from the string pool, then decode the
attributes.  Returns the element type with its attribute map (a new element
has no children) and the final cursor position. -/
def parse_start_element (b : Buf) (pos : Nat) (strings : List String)
    (namespace_prefixes : List (String × String)) :
    Except FormatError ((String × List (String × String)) × Nat) :=
  match ChunkHeader.from_buff b (pos - 2) .ResXmlStartElementType with
  | .error e => .error e
  | .ok (_header, p1) =>
    match readU32 b p1 with
    | .error e => .error e
    | .ok (_line_number, p2) =>
      match readU32 b p2 with
      | .error e => .error e
      | .ok (_comment, p3) =>
        match readU32 b p3 with
        | .error e => .error e
        | .ok (_ns, p4) =>
          match readU32 b p4 with
          | .error e => .error e
          | .ok (name, p5) =>
            match readU32 b p5 with
            | .error e => .error e
            | .ok (_attribute_size, p6) =>
              match readU16 b p6 with
              | .error e => .error e
              | .ok (attribute_count, p7) =>
                match readU16 b p7 with
                | .error e => .error e
                | .ok (_id_index, p8) =>
                  match readU16 b p8 with
                  | .error e => .error e
                  | .ok (_class_index, p9) =>
                    match readU16 b p9 with
                    | .error e => .error e
                    | .ok (_style_index, p10) =>
                      match strings.get? name with
                      | none => .error (.stringIndexOutOfRange name)
                      | some element_type =>
                        match parse_attrs b strings namespace_prefixes
                            attribute_count [] p10 with
                        | .error e => .error e
                        | .ok (attrs, p11) => .ok ((element_type, attrs), p11)

/-- Embedding of `parse_end_element` (`src/parser.rs`): rewind 2 bytes, validate the
header, read line number, comment, namespace (discarded) and the name index,
and resolve the name from the string pool. -/
def parse_end_element (b : Buf) (pos : Nat) (strings : List String) :
    Except FormatError (String × Nat) :=
  match ChunkHeader.from_buff b (pos - 2) .ResXmlEndElementType with
  | .error e => .error e
  | .ok (_header, p1) =>
    match readU32 b p1 with
    | .error e => .error e
    | .ok (_line_number, p2) =>
      match readU32 b p2 with
      | .error e => .error e
      | .ok (_comment, p3) =>
        match readU32 b p3 with
        | .error e => .error e
        | .ok (_ns, p4) =>
          match readU32 b p4 with
          | .error e => .error e
          | .ok (name, p5) =>
            match strings.get? name with
            | none => .error (.stringIndexOutOfRange name)
            | some s => .ok (s, p5)

/-- Resource map structure (`src/resource_map.rs`, struct `ResourceMap`). -/
structure ResourceMap where
  header : ChunkHeader
  resources_id : List Nat
  deriving DecidableEq, Repr

/-- Embedding of `ResourceMap::from_buff` (`src/resource_map.rs`): rewind 2 bytes,
validate the header, then read `(size / 4) - 2` resource identifiers, where
`size` is the total chunk size of the header. -/
def ResourceMap.from_buff (b : Buf) (pos : Nat) : Except FormatError (ResourceMap × Nat) :=
  match ChunkHeader.from_buff b (pos - 2) .ResXmlResourceMapType with
  | .error e => .error e
  | .ok (header, p1) =>
    match readU32s b (header.chunk_size / 4 - 2) p1 with
    | .error e => .error e
    | .ok (ids, p2) => .ok (⟨header, ids⟩, p2)

/-- Modelled from the spec: `ResTable::parse` (`res_table.rs` is not under
src/).  Spec section 1: for the resource-table chunk, the core's only
obligation is to skip/consume it as an opaque chunk of declared size; the
chunk header is validated and the cursor is placed at the end of the chunk. -/
def ResTable.parse (b : Buf) (pos : Nat) : Except FormatError Nat :=
  match ChunkHeader.from_buff b (pos - 2) .ResTableType with
  | .error e => .error e
  | .ok (header, _p1) => .ok (pos - 2 + header.chunk_size)

/-- One node of the XML tree (`src/parser.rs`, struct `XmlElement`).  The
Rust tree is built from reference-counted cells; here the nodes live in an
arena (a list indexed by node id) and `children` holds arena indices, so the
shared mutation through `Rc<RefCell<..>>` becomes updates of the arena. -/
structure XmlNode where
  element_type : String
  attributes : List (String × String)
  children : List Nat
  deriving DecidableEq, Repr

/-- Update the arena node at index `i` (a `borrow_mut` on one element). -/
def arenaModify (arena : List XmlNode) (i : Nat) (f : XmlNode → XmlNode) : List XmlNode :=
  match arena.get? i with
  | some n => arena.set i (f n)
  | none => arena

/-- The mutable state of `parse_xml`: the global string list, the namespace
prefix table, the element arena (the synthetic root is node 0), and the
open-element stack of arena indices with its top at the head. -/
structure ParseState where
  global_strings : List String
  namespace_prefixes : List (String × String)
  arena : List XmlNode
  stack : List Nat
  deriving DecidableEq, Repr

/-- The initial state of `parse_xml`: a synthetic root of type `"manifest"`
with no attributes and no children, and a stack holding only the root. -/
def initState : ParseState :=
  ⟨[], [], [⟨"manifest", [], []⟩], [0]⟩

/-- The start-element arm of the `parse_xml` dispatch (src/parser.rs lines
318-330): when the decoded element type is `"manifest"`, assign the decoded
attributes to the element at the top of the stack (no push, no new node);
otherwise append a new node as a child of the stack top and push it.  Both
branches call `stack.last().unwrap()`, so an empty stack is a panic. -/
def handle_start_element (st : ParseState) (element_type : String)
    (attrs : List (String × String)) : Except FormatError ParseState :=
  match st.stack with
  | [] => .error .noOpenElement
  | top :: _ =>
    if element_type = "manifest" then
      .ok { st with arena := arenaModify st.arena top (fun n => { n with attributes := attrs }) }
    else
      let newId := st.arena.length
      .ok { st with
            arena := arenaModify (st.arena ++ [⟨element_type, attrs, []⟩]) top
                       (fun n => { n with children := n.children ++ [newId] }),
            stack := newId :: st.stack }

/-- One iteration of the `parse_xml` dispatch loop (src/parser.rs lines
299-342): read the 2-byte tag and dispatch on it.  `.ok none` is the normal
loop exit (the tag read failed at end of input); `.ok (some ..)` carries the
updated state and cursor; `.error` is a fatal failure. -/
def parseXmlStep (b : Buf) (st : ParseState) (pos : Nat) :
    Except FormatError (Option (ParseState × Nat)) :=
  match ChunkType.parse_block_type b pos with
  | .error .truncatedInput => .ok none
  | .error e => .error e
  | .ok (block_type, p2) =>
    match block_type with
    | .ResNullType => .ok (some (st, p2))
    | .ResStringPoolType =>
      match StringPool.from_buff b p2 st.global_strings with
      | .error e => .error e
      | .ok (_pool, g1, p3) => .ok (some ({ st with global_strings := g1 }, p3))
    | .ResTableType =>
      match ResTable.parse b p2 with
      | .error e => .error e
      | .ok p3 => .ok (some (st, p3))
    | .ResXmlType =>
      match ChunkHeader.from_buff b (p2 - 2) .ResXmlType with
      | .error e => .error e
      | .ok (_header, p3) => .ok (some (st, p3))
    | .ResXmlStartNamespaceType =>
      match parse_start_namespace b p2 st.global_strings st.namespace_prefixes with
      | .error e => .error e
      | .ok (ns1, p3) => .ok (some ({ st with namespace_prefixes := ns1 }, p3))
    | .ResXmlEndNamespaceType =>
      match parse_end_namespace b p2 with
      | .error e => .error e
      | .ok p3 => .ok (some (st, p3))
    | .ResXmlStartElementType =>
      match parse_start_element b p2 st.global_strings st.namespace_prefixes with
      | .error e => .error e
      | .ok ((element_type, attrs), p3) =>
        match handle_start_element st element_type attrs with
        | .error e => .error e
        | .ok st1 => .ok (some (st1, p3))
    | .ResXmlEndElementType =>
      match parse_end_element b p2 st.global_strings with
      | .error e => .error e
      | .ok (_name, p3) => .ok (some ({ st with stack := st.stack.tail }, p3))
    | .ResXmlResourceMapType =>
      match ResourceMap.from_buff b p2 with
      | .error e => .error e
      | .ok (_map, p3) => .ok (some (st, p3))
    | .ResXmlCDataType => .ok (some (st, p2))
    | .ResXmlLastChunkType => .ok (some (st, p2))
    | .ResTablePackageType => .ok (some (st, p2))
    | .ResTableTypeType => .ok (some (st, p2))
    | .ResTableTypeSpecType => .ok (some (st, p2))
    | .ResTableLibraryType => .ok (some (st, p2))

/-- The `while let Ok(block_type) = ..` loop of `parse_xml`, with explicit
fuel.  Every iteration of the Rust loop advances the cursor by at least two
bytes, so `b.length + 1` iterations always suffice and the `outOfFuel` case
is unreachable when the loop is started with that much fuel. -/
def parseXmlLoop (b : Buf) : Nat → ParseState → Nat → Except FormatError ParseState
  | 0, _, _ => .error .outOfFuel
  | fuel + 1, st, pos =>
    match parseXmlStep b st pos with
    | .error e => .error e
    | .ok none => .ok st
    | .ok (some (st1, pos1)) => parseXmlLoop b fuel st1 pos1

/-- Embedding of `parse_xml` (`src/parser.rs`): run the dispatch loop from position 0 on
the initial state and return the final state (the Rust function returns the
root `Rc`, which is node 0 of the arena together with everything reachable
from it). -/
def parse_xml (b : Buf) : Except FormatError ParseState :=
  parseXmlLoop b (b.length + 1) initState 0

/-- The effect of one string-pool entry on the global list, as a standalone
function of its offset: `some` the decoded string when its declared size is
positive, `none` when the entry is skipped.  Used to state that the entry
loop of `StringPool::from_buff` appends exactly these strings. -/
def entryOpt (b : Buf) (is_utf8 : Bool) (base off : Nat) :
    Except FormatError (Option String) :=
  match decodeStringEntry b is_utf8 (base + off) with
  | .error e => .error e
  | .ok (sz, s, _) => .ok (if 0 < sz then some s else none)

/-- Apply `entryOpt` to every offset of a string-pool chunk. -/
def entriesOpts (b : Buf) (is_utf8 : Bool) (base : Nat) :
    List Nat → Except FormatError (List (Option String))
  | [] => .ok []
  | off :: rest =>
    match entryOpt b is_utf8 base off with
    | .error e => .error e
    | .ok o =>
      match entriesOpts b is_utf8 base rest with
      | .error e => .error e
      | .ok os => .ok (o :: os)

/-- Structural equality of tree nodes: same element type, extensionally equal
attribute maps, and the same ordered children. -/
def nodeStructEq (n1 n2 : XmlNode) : Prop :=
  n1.element_type = n2.element_type ∧
  (∀ k, mapLookup n1.attributes k = mapLookup n2.attributes k) ∧
  n1.children = n2.children

/-- Structural equality of decode results: arenas of the same size whose
nodes are pairwise structurally equal (so the trees rooted at node 0 agree on
element types, attribute mappings and ordered children at every node). -/
def stateStructEq (s1 s2 : ParseState) : Prop :=
  s1.arena.length = s2.arena.length ∧
  (∀ i n1 n2, s1.arena.get? i = some n1 → s2.arena.get? i = some n2 → nodeStructEq n1 n2)

/-- Concrete document: a UTF-16 string pool with entries `"a"` and
`"manifest"`, a start-element chunk for `"a"`, then a start-element chunk
for `"manifest"` with one attribute (key from pool index 0, value from pool
index 1) arriving while `"a"` is the top of the open-element stack. -/
def nestedManifestBuf : Buf :=
  [0x01, 0x00, 0x08, 0x00, 0x3A, 0x00, 0x00, 0x00,
   0x02, 0x00, 0x00, 0x00, 0x00, 0x00, 0x00, 0x00,
   0x00, 0x00, 0x00, 0x00, 0x24, 0x00, 0x00, 0x00,
   0x00, 0x00, 0x00, 0x00,
   0x00, 0x00, 0x00, 0x00, 0x04, 0x00, 0x00, 0x00,
   0x01, 0x00, 0x61, 0x00,
   0x08, 0x00, 0x6D, 0x00, 0x61, 0x00, 0x6E, 0x00, 0x69, 0x00,
   0x66, 0x00, 0x65, 0x00, 0x73, 0x00, 0x74, 0x00,
   0x02, 0x01, 0x10, 0x00, 0x24, 0x00, 0x00, 0x00,
   0xFF, 0xFF, 0xFF, 0xFF, 0xFF, 0xFF, 0xFF, 0xFF,
   0xFF, 0xFF, 0xFF, 0xFF, 0x00, 0x00, 0x00, 0x00,
   0x14, 0x00, 0x00, 0x00, 0x00, 0x00, 0x00, 0x00,
   0x00, 0x00, 0x00, 0x00,
   0x02, 0x01, 0x10, 0x00, 0x38, 0x00, 0x00, 0x00,
   0xFF, 0xFF, 0xFF, 0xFF, 0xFF, 0xFF, 0xFF, 0xFF,
   0xFF, 0xFF, 0xFF, 0xFF, 0x01, 0x00, 0x00, 0x00,
   0x14, 0x00, 0x00, 0x00, 0x01, 0x00, 0x00, 0x00,
   0x00, 0x00, 0x00, 0x00,
   0xFF, 0xFF, 0xFF, 0xFF, 0x00, 0x00, 0x00, 0x00,
   0x01, 0x00, 0x00, 0x00, 0x08, 0x00, 0x00, 0x03,
   0x00, 0x00, 0x00, 0x00]

/-- Concrete document: a UTF-16 string pool with the single entry `"a"`,
followed by two end-element chunks.  The first pops the synthetic root; the
second arrives with the open-element stack already empty. -/
def doubleEndBuf : Buf :=
  [0x01, 0x00, 0x08, 0x00, 0x24, 0x00, 0x00, 0x00,
   0x01, 0x00, 0x00, 0x00, 0x00, 0x00, 0x00, 0x00,
   0x00, 0x00, 0x00, 0x00, 0x20, 0x00, 0x00, 0x00,
   0x00, 0x00, 0x00, 0x00, 0x00, 0x00, 0x00, 0x00,
   0x01, 0x00, 0x61, 0x00,
   0x03, 0x01, 0x10, 0x00, 0x18, 0x00, 0x00, 0x00,
   0xFF, 0xFF, 0xFF, 0xFF, 0xFF, 0xFF, 0xFF, 0xFF,
   0xFF, 0xFF, 0xFF, 0xFF, 0x00, 0x00, 0x00, 0x00,
   0x03, 0x01, 0x10, 0x00, 0x18, 0x00, 0x00, 0x00,
   0xFF, 0xFF, 0xFF, 0xFF, 0xFF, 0xFF, 0xFF, 0xFF,
   0xFF, 0xFF, 0xFF, 0xFF, 0x00, 0x00, 0x00, 0x00]

/-- Concrete chunk: a single end-element chunk referring to pool index 0. -/
def endElemBuf : Buf :=
  [0x03, 0x01, 0x10, 0x00, 0x18, 0x00, 0x00, 0x00,
   0xFF, 0xFF, 0xFF, 0xFF, 0xFF, 0xFF, 0xFF, 0xFF,
   0xFF, 0xFF, 0xFF, 0xFF, 0x00, 0x00, 0x00, 0x00]

/-- Concrete chunk: the UTF-16 string pool of the repository's own
`test_string_pool_parse_utf16` test, holding `"Hello"` and `"World"`. -/
def helloWorldBuf : Buf :=
  [0x01, 0x00, 0x08, 0x00, 0x80, 0x00, 0x00, 0x00,
   0x02, 0x00, 0x00, 0x00, 0x00, 0x00, 0x00, 0x00,
   0x01, 0x00, 0x00, 0x00, 0x24, 0x00, 0x00, 0x00,
   0x14, 0x00, 0x00, 0x00,
   0x00, 0x00, 0x00, 0x00, 0x0E, 0x00, 0x00, 0x00,
   0x05, 0x00, 0x48, 0x00, 0x65, 0x00, 0x6C, 0x00, 0x6C, 0x00, 0x6F, 0x00,
   0x00, 0x00,
   0x05, 0x00, 0x57, 0x00, 0x6F, 0x00, 0x72, 0x00, 0x6C, 0x00, 0x64, 0x00,
   0x00, 0x00]

/-! Helper lemmas shared by the claim theorems. -/

/-- Looking up a key right after inserting it yields the inserted value. -/
theorem mapLookup_mapInsert (m : List (String × String)) (k v : String) :
    mapLookup (mapInsert m k v) k = some v := by
  induction m with
  | nil => simp [mapInsert, mapLookup]
  | cons hd tl ih =>
    obtain ⟨k1, v1⟩ := hd
    by_cases h : k1 = k
    · simp [mapInsert, mapLookup, h]
    · simp [mapInsert, mapLookup, h, ih]

/-- Modifying an arena node preserves the arena size. -/
theorem arenaModify_length (arena : List XmlNode) (i : Nat) (f : XmlNode → XmlNode) :
    (arenaModify arena i f).length = arena.length := by
  unfold arenaModify
  cases arena.get? i <;> simp

/-- The last element of a one-element extension is found at the old length. -/
theorem get?_append_length {α : Type} (l : List α) (x : α) :
    (l ++ [x]).get? l.length = some x := by
  induction l with
  | nil => rfl
  | cons a t ih => exact ih

/-- The entry loop of `StringPool::from_buff` only appends to the global
list, and appends exactly the non-empty decoded entries in offset order. -/
theorem decode_strings_append (b : Buf) (u : Bool) (base : Nat) :
    ∀ (offs : List Nat) (g : List String) (p : Nat) (g1 : List String) (p1 : Nat),
      decode_strings b u base offs g p = .ok (g1, p1) →
      ∃ opts, entriesOpts b u base offs = .ok opts ∧ g1 = g ++ opts.filterMap id := by
  intro offs
  induction offs with
  | nil =>
    intro g p g1 p1 h
    unfold decode_strings at h
    injection h with h
    injection h with h har
    subst h
    exact ⟨[], rfl, by simp⟩
  | cons off rest ih =>
    intro g p g1 p1 h
    unfold decode_strings at h
    cases hde : decodeStringEntry b u (base + off) with
    | error e => rw [hde] at h; exact absurd h (by simp)
    | ok r =>
      obtain ⟨sz, s, pe⟩ := r
      rw [hde] at h
      obtain ⟨opts, hm, hg⟩ := ih _ _ _ _ h
      refine ⟨(if 0 < sz then some s else none) :: opts, ?_, ?_⟩
      · unfold entriesOpts entryOpt
        rw [hde, hm]
      · by_cases hsz : 0 < sz
        · simp only [hsz, if_true] at hg ⊢
          simp [hg, List.filterMap]
        · simp only [hsz, if_false] at hg ⊢
          simp [hg, List.filterMap]

/-- Modifying an arena node leaves every other index unchanged. -/
theorem arenaModify_get?_ne (arena : List XmlNode) (i j : Nat) (f : XmlNode → XmlNode)
    (hij : i ≠ j) : (arenaModify arena i f).get? j = arena.get? j := by
  unfold arenaModify
  cases h : arena.get? i with
  | none => rfl
  | some n =>
    rw [List.get?_eq_getElem?, List.get?_eq_getElem?]
    exact List.getElem?_set_ne hij

/-! Claim theorems. -/

/-- C7: for every 8-byte input whose 2-byte little-endian tag decodes to the
expected `ChunkType` and whose little-endian `header_size` and `chunk_size`
satisfy `header_size ≥ 8`, `chunk_size ≥ 8` and `chunk_size ≥ header_size`,
`ChunkHeader::from_buff` succeeds and returns exactly the decoded chunk type,
header size and chunk size, advancing the cursor by exactly 8 bytes. -/
theorem chunk_header_roundtrip (b : Buf) (p : Nat) (expected : ChunkType) (hs cs : Nat)
    (h1 : ChunkType.parse_block_type b p = .ok (expected, p + 2))
    (h2 : readU16 b (p + 2) = .ok (hs, p + 4))
    (h3 : readU32 b (p + 4) = .ok (cs, p + 8))
    (hh : 8 ≤ hs) (hc : 8 ≤ cs) (hch : hs ≤ cs) :
    ChunkHeader.from_buff b p expected = .ok (⟨expected, hs, cs⟩, p + 8) := by
  unfold ChunkHeader.from_buff
  rw [h1]
  simp only [eq_self_iff_true, if_true, h2, h3]
  rw [if_neg (by omega), if_neg (by omega), if_neg (by omega)]

/-- Witness for C7 at the byte input of the repository's `test_valid_case`. -/
theorem chunk_header_roundtrip_witness :
    ChunkHeader.from_buff [1, 0, 8, 0, 16, 0, 0, 0] 0 .ResStringPoolType =
      .ok (⟨.ResStringPoolType, 8, 16⟩, 8) :=
  chunk_header_roundtrip [1, 0, 8, 0, 16, 0, 0, 0] 0 .ResStringPoolType 8 16
    rfl rfl rfl (by omega) (by omega) (by omega)

/-- C8: with a matching expected tag, `ChunkHeader::from_buff` fails with
`headerTooSmall` whenever `header_size < 8`, with `chunkTooSmall` when
`header_size` is fine but `chunk_size < 8`, and with `chunkSmallerThanHeader`
when both sizes are at least 8 but `chunk_size < header_size` — the specific
error kind of the violated invariant, also when only that one is violated. -/
theorem chunk_header_error_kinds (b : Buf) (p : Nat) (expected : ChunkType) (hs cs : Nat)
    (h1 : ChunkType.parse_block_type b p = .ok (expected, p + 2))
    (h2 : readU16 b (p + 2) = .ok (hs, p + 4))
    (h3 : readU32 b (p + 4) = .ok (cs, p + 8)) :
    (hs < 8 → ChunkHeader.from_buff b p expected = .error .headerTooSmall) ∧
    (8 ≤ hs → cs < 8 → ChunkHeader.from_buff b p expected = .error .chunkTooSmall) ∧
    (8 ≤ hs → 8 ≤ cs → cs < hs →
      ChunkHeader.from_buff b p expected = .error .chunkSmallerThanHeader) := by
  refine ⟨fun hlt => ?_, fun hge hlt => ?_, fun hge hge2 hlt => ?_⟩ <;>
    · unfold ChunkHeader.from_buff
      rw [h1]
      simp only [eq_self_iff_true, if_true, h2, h3]
      first
        | rw [if_pos (by omega)]
        | rw [if_neg (by omega), if_pos (by omega)]
        | rw [if_neg (by omega), if_neg (by omega), if_pos (by omega)]

/-- Witness for C8 at the byte inputs of the repository's three
`should_panic` header tests, one per violated invariant. -/
theorem chunk_header_error_kinds_witness :
    ChunkHeader.from_buff [1, 0, 4, 0, 16, 0, 0, 0] 0 .ResStringPoolType =
      .error .headerTooSmall ∧
    ChunkHeader.from_buff [1, 0, 8, 0, 4, 0, 0, 0] 0 .ResStringPoolType =
      .error .chunkTooSmall ∧
    ChunkHeader.from_buff [1, 0, 16, 0, 8, 0, 0, 0] 0 .ResStringPoolType =
      .error .chunkSmallerThanHeader :=
  ⟨(chunk_header_error_kinds [1, 0, 4, 0, 16, 0, 0, 0] 0 .ResStringPoolType 4 16
      rfl rfl rfl).1 (by omega),
   (chunk_header_error_kinds [1, 0, 8, 0, 4, 0, 0, 0] 0 .ResStringPoolType 8 4
      rfl rfl rfl).2.1 (by omega) (by omega),
   (chunk_header_error_kinds [1, 0, 16, 0, 8, 0, 0, 0] 0 .ResStringPoolType 16 8
      rfl rfl rfl).2.2 (by omega) (by omega) (by omega)⟩

/-- C9: `parse_xml` is deterministic — two successful decodes of the same
byte buffer produce structurally equal trees (same element types, same
attribute mappings, same ordered children at every arena node). -/
theorem parse_xml_deterministic (b : Buf) (s1 s2 : ParseState)
    (h1 : parse_xml b = .ok s1) (h2 : parse_xml b = .ok s2) : stateStructEq s1 s2 := by
  rw [h1] at h2
  injection h2 with h
  subst h
  refine ⟨rfl, fun i n1 n2 ha hb => ?_⟩
  rw [ha] at hb
  injection hb with hb
  subst hb
  exact ⟨rfl, fun k => rfl, rfl⟩

/-- Witness for C9 at the empty buffer, which decodes to the initial state. -/
theorem parse_xml_deterministic_witness : stateStructEq initState initState :=
  parse_xml_deterministic [] initState initState rfl rfl

/-- C4: for every attribute decoded by `parse_start_element`, when the
`raw_value` field is the sentinel `0xFFFFFFFF` the textual value is the
typed-value rendering — Reference is `"type1/"` and `data` in decimal,
IntDec is `data` in decimal, IntHex is `"0x"` and `data` in lowercase
hexadecimal with no leading zeros, IntBoolean is `"true"` for nonzero `data`
and `"false"` for zero — and when `raw_value` is not the sentinel the value
is the string-pool entry at index `raw_value`. -/
theorem attr_value_rendering (strings : List String) (nsmap : List (String × String))
    (f : AttrFields) (kv : String × String)
    (h : renderAttr strings nsmap f = .ok kv) :
    (f.attr_raw_val = 0xffffffff →
      (f.typed.data_type = .TypeReference → kv.2 = "type1/" ++ toString f.typed.data) ∧
      (f.typed.data_type = .TypeIntDec → kv.2 = toString f.typed.data) ∧
      (f.typed.data_type = .TypeIntHex → kv.2 = "0x" ++ rustHex f.typed.data) ∧
      (f.typed.data_type = .TypeIntBoolean →
        kv.2 = if f.typed.data = 0 then "false" else "true")) ∧
    (f.attr_raw_val ≠ 0xffffffff → strings.get? f.attr_raw_val = some kv.2) := by
  unfold renderAttr at h
  split at h
  · exact absurd h (by simp)
  · split at h
    · exact absurd h (by simp)
    · rename_i name_str hname
      split at h
      · exact absurd h (by simp)
      · rename_i val hval
        injection h with h
        subst h
        constructor
        · intro hraw
          rw [if_neg (by simp [hraw])] at hval
          injection hval with hval
          refine ⟨?_, ?_, ?_, ?_⟩ <;> intro hdt <;>
            simp [← hval, renderTypedValue, hdt]
        · intro hraw
          rw [if_pos hraw] at hval
          split at hval
          · exact absurd hval (by simp)
          · rename_i s hs
            injection hval with hval
            rw [hs, hval]

/-- Witness for C4: an attribute with sentinel `raw_value` and typed value
IntHex 255 renders to `"0xff"` (and non-trivially uses both conjuncts of the
theorem at a second attribute whose `raw_value` indexes the pool). -/
theorem attr_value_rendering_witness :
    renderAttr ["nm"] [] ⟨0xffffffff, 0, 0xffffffff, ⟨8, 0, .TypeIntHex, 255⟩⟩ =
      .ok ("nm", "0xff") ∧
    (("nm", "0xff") : String × String).2 = "0x" ++ rustHex 255 :=
  ⟨rfl,
   ((attr_value_rendering ["nm"] [] ⟨0xffffffff, 0, 0xffffffff, ⟨8, 0, .TypeIntHex, 255⟩⟩
      ("nm", "0xff") rfl).1 rfl).2.2.1 rfl⟩

/-- C5: for every attribute decoded by `parse_start_element`, when the
namespace field is not the sentinel `0xFFFFFFFF` the key is rendered as
`prefix ++ ":" ++ name` with the prefix looked up in the namespace table
under the URI string at the namespace index — and a URI with no registered
prefix is a fatal error; when the namespace field is the sentinel, the key
is the name string alone. -/
theorem attr_key_rendering (strings : List String) (nsmap : List (String × String))
    (f : AttrFields) :
    (∀ kv, f.attr_namespace ≠ 0xffffffff → renderAttr strings nsmap f = .ok kv →
      ∃ uri px nm, strings.get? f.attr_namespace = some uri ∧
        mapLookup nsmap uri = some px ∧ strings.get? f.attr_name = some nm ∧
        kv.1 = px ++ ":" ++ nm) ∧
    (∀ uri, f.attr_namespace ≠ 0xffffffff → strings.get? f.attr_namespace = some uri →
      mapLookup nsmap uri = none →
      renderAttr strings nsmap f = .error .unresolvedNamespace) ∧
    (∀ kv, f.attr_namespace = 0xffffffff → renderAttr strings nsmap f = .ok kv →
      strings.get? f.attr_name = some kv.1) := by
  refine ⟨fun kv hns h => ?_, fun uri hns hget hlook => ?_, fun kv hns h => ?_⟩
  · unfold renderAttr at h
    rw [if_pos hns] at h
    split at h
    · exact absurd h (by simp)
    · rename_i ks hks
      split at h
      · exact absurd h (by simp)
      · rename_i nm hnm
        split at h
        · exact absurd h (by simp)
        · rename_i val hval
          injection h with h
          subst h
          split at hks
          · exact absurd hks (by simp)
          · rename_i uri hget2
            split at hks
            · exact absurd hks (by simp)
            · rename_i px hlook2
              injection hks with hks
              subst hks
              exact ⟨uri, px, nm, hget2, hlook2, hnm, rfl⟩
  · unfold renderAttr
    rw [if_pos hns]
    simp only [hget, hlook]
  · unfold renderAttr at h
    rw [if_neg (by simp [hns])] at h
    simp only at h
    split at h
    · exact absurd h (by simp)
    · rename_i nm hnm
      split at h
      · exact absurd h (by simp)
      · rename_i val hval
        injection h with h
        subst h
        rw [hnm]
        simp

/-- Witness for C5: with pool `["u", "nm"]` and the table mapping URI `"u"`
to prefix `"andr"`, an attribute with namespace index 0 and name index 1
gets the key `"andr:nm"`. -/
theorem attr_key_rendering_witness :
    ∃ uri px nm, (["u", "nm"] : List String).get? 0 = some uri ∧
      mapLookup [("u", "andr")] uri = some px ∧
      (["u", "nm"] : List String).get? 1 = some nm ∧
      (("andr:nm", "") : String × String).1 = px ++ ":" ++ nm :=
  (attr_key_rendering ["u", "nm"] [("u", "andr")]
      ⟨0, 1, 0xffffffff, ⟨8, 0, .TypeNull, 0⟩⟩).1
    ("andr:nm", "") (by decide) rfl

/-- C10: an attribute with sentinel `raw_value` whose typed value has one of
the variants with no canonical rendering (the `TODO` arms of the source) is
still decoded with the empty string as its value, and the attribute loop of
`parse_start_element` still inserts it into the attribute map under its key. -/
theorem attr_todo_variants (strings : List String) (nsmap : List (String × String))
    (f : AttrFields) (kv : String × String)
    (h : renderAttr strings nsmap f = .ok kv)
    (hraw : f.attr_raw_val = 0xffffffff)
    (hdt : f.typed.data_type = .TypeNull ∨ f.typed.data_type = .TypeAttribute ∨
      f.typed.data_type = .TypeString ∨ f.typed.data_type = .TypeFloat ∨
      f.typed.data_type = .TypeDimension ∨ f.typed.data_type = .TypeFraction ∨
      f.typed.data_type = .TypeDynamicReference ∨
      f.typed.data_type = .TypeDynamicAttribute ∨
      f.typed.data_type = .TypeIntColorArgb8 ∨ f.typed.data_type = .TypeIntColorRgb8 ∨
      f.typed.data_type = .TypeIntColorArgb4 ∨ f.typed.data_type = .TypeIntColorRgb4) :
    kv.2 = "" ∧
    (∀ attrs, mapLookup (mapInsert attrs kv.1 kv.2) kv.1 = some "") ∧
    (∀ (b : Buf) (p p1 n : Nat) (attrs : List (String × String)),
      decodeAttrRaw b p = .ok (f, p1) →
      parse_attrs b strings nsmap (n + 1) attrs p =
        parse_attrs b strings nsmap n (mapInsert attrs kv.1 "") p1) := by
  have hv2 : kv.2 = "" := by
    unfold renderAttr at h
    split at h
    · exact absurd h (by simp)
    · split at h
      · exact absurd h (by simp)
      · rename_i name_str hname
        split at h
        · exact absurd h (by simp)
        · rename_i val hval
          injection h with h
          subst h
          rw [if_neg (by simp [hraw])] at hval
          injection hval with hval
          rcases hdt with hdt | hdt | hdt | hdt | hdt | hdt | hdt | hdt | hdt | hdt | hdt | hdt <;>
            simp [← hval, renderTypedValue, hdt]
  refine ⟨hv2, fun attrs => ?_, fun b p p1 n attrs hdec => ?_⟩
  · rw [hv2, mapLookup_mapInsert]
  · show (match decodeAttrRaw b p with
      | .error e => .error e
      | .ok (f, p1) =>
        match renderAttr strings nsmap f with
        | .error e => .error e
        | .ok (k, v) => parse_attrs b strings nsmap n (mapInsert attrs k v) p1) =
      parse_attrs b strings nsmap n (mapInsert attrs kv.1 "") p1
    simp only [hdec, h]
    rw [hv2]

/-- Witness for C10: an attribute with sentinel `raw_value` and typed value
Float decodes to the empty string and is inserted under its key. -/
theorem attr_todo_variants_witness :
    (("nm", "") : String × String).2 = "" ∧
    (∀ attrs, mapLookup (mapInsert attrs "nm" "") "nm" = some "") ∧
    (∀ (b : Buf) (p p1 n : Nat) (attrs : List (String × String)),
      decodeAttrRaw b p =
          .ok (⟨0xffffffff, 0, 0xffffffff, ⟨8, 0, .TypeFloat, 7⟩⟩, p1) →
      parse_attrs b ["nm"] [] (n + 1) attrs p =
        parse_attrs b ["nm"] [] n (mapInsert attrs "nm" "") p1) := by
  have := attr_todo_variants ["nm"] []
    ⟨0xffffffff, 0, 0xffffffff, ⟨8, 0, .TypeFloat, 7⟩⟩ ("nm", "") rfl rfl
    (by right; right; right; left; rfl)
  exact this

/-- C1 counterexample: in `nestedManifestBuf` a start-element chunk with
element type `"manifest"` arrives while the stack is `["a" node, root]` — not
exactly the synthetic root.  The claim predicts a new third node appended as
a child of the `"a"` node and pushed; the code instead merges the decoded
attributes into the `"a"` node (the stack top): the final arena has only two
nodes, the `"a"` node has no children and carries the attribute, and the
stack is unchanged. -/
theorem start_element_merge_counterexample :
    parse_xml nestedManifestBuf =
      .ok ⟨["a", "manifest"], [],
        [⟨"manifest", [], [1]⟩, ⟨"a", [("a", "manifest")], []⟩], [1, 0]⟩ := by
  rfl

/-- C1 amended: on a start-element, whenever the decoded element type is
`"manifest"` — at any stack depth, not only when the stack holds exactly the
synthetic root — the decoded attributes replace the attributes of the current
stack-top node, with no push and no new node; for every other element type a
new node is constructed, appended as a child of the stack top, and pushed. -/
theorem start_element_merge_or_push (st : ParseState) (ety : String)
    (attrs : List (String × String)) (top : Nat) (rest : List Nat)
    (hstack : st.stack = top :: rest) :
    (ety = "manifest" →
      handle_start_element st ety attrs =
        .ok { st with arena := (arenaModify st.arena top
                (fun n => { n with attributes := attrs })) }) ∧
    (ety ≠ "manifest" →
      handle_start_element st ety attrs =
        .ok { st with
              arena := (arenaModify (st.arena ++ [⟨ety, attrs, []⟩]) top
                        (fun n => { n with children := n.children ++ [st.arena.length] })),
              stack := st.arena.length :: st.stack }) ∧
    (top < st.arena.length → ∀ st1, handle_start_element st ety attrs = .ok st1 →
      (ety = "manifest" →
        st1.stack = st.stack ∧ st1.arena.length = st.arena.length) ∧
      (ety ≠ "manifest" →
        st1.stack = st.arena.length :: st.stack ∧
        st1.arena.length = st.arena.length + 1 ∧
        st1.arena.get? st.arena.length = some ⟨ety, attrs, []⟩)) := by
  have hmani : ety = "manifest" →
      handle_start_element st ety attrs =
        .ok { st with arena := (arenaModify st.arena top
                (fun n => { n with attributes := attrs })) } := by
    intro hm
    unfold handle_start_element
    rw [hstack]
    simp only [if_pos hm]
  have hpush : ety ≠ "manifest" →
      handle_start_element st ety attrs =
        .ok { st with
              arena := (arenaModify (st.arena ++ [⟨ety, attrs, []⟩]) top
                        (fun n => { n with children := n.children ++ [st.arena.length] })),
              stack := st.arena.length :: st.stack } := by
    intro hm
    unfold handle_start_element
    rw [hstack]
    simp only [if_neg hm]
  refine ⟨hmani, hpush, fun htop st1 h1 => ⟨fun hm => ?_, fun hm => ?_⟩⟩
  · rw [hmani hm] at h1
    injection h1 with h1
    subst h1
    exact ⟨rfl, arenaModify_length _ _ _⟩
  · rw [hpush hm] at h1
    injection h1 with h1
    subst h1
    refine ⟨rfl, ?_, ?_⟩
    · rw [arenaModify_length]
      simp
    · rw [arenaModify_get?_ne _ _ _ _ (by omega)]
      exact get?_append_length _ _

/-- Witness for C1 amended: pushing a non-manifest element onto the initial
state appends it as child 1 of the root and pushes its id. -/
theorem start_element_merge_or_push_witness :
    handle_start_element initState "x" [] =
      .ok ⟨[], [], [⟨"manifest", [], [1]⟩, ⟨"x", [], []⟩], [1, 0]⟩ :=
  (start_element_merge_or_push initState "x" [] 0 [] rfl).2.1 (by decide)

/-- C2 counterexample: in `doubleEndBuf` the first end-element chunk pops the
synthetic root, so the second end-element chunk arrives with an empty
open-element stack.  The claim predicts a fatal decode error; the code
silently ignores the extra pop and the decode succeeds. -/
theorem end_element_empty_stack_counterexample :
    parse_xml doubleEndBuf = .ok ⟨["a"], [], [⟨"manifest", [], []⟩], []⟩ := by
  rfl

/-- C2 amended: every end-element chunk whose own decode succeeds pops one
entry from the open-element stack when the stack is nonempty; an end-element
chunk that arrives when the stack is already empty is silently ignored (the
pop is a no-op and the loop continues), not a fatal error. -/
theorem end_element_pops_or_ignores (b : Buf) (st : ParseState) (pos p2 : Nat)
    (nm : String) (p3 : Nat)
    (htag : ChunkType.parse_block_type b pos = .ok (.ResXmlEndElementType, p2))
    (hend : parse_end_element b p2 st.global_strings = .ok (nm, p3)) :
    parseXmlStep b st pos = .ok (some ({ st with stack := st.stack.tail }, p3)) ∧
    (∀ top rest, st.stack = top :: rest →
      parseXmlStep b st pos = .ok (some ({ st with stack := rest }, p3))) ∧
    (st.stack = [] →
      parseXmlStep b st pos = .ok (some ({ st with stack := [] }, p3))) := by
  have hstep : parseXmlStep b st pos =
      .ok (some ({ st with stack := st.stack.tail }, p3)) := by
    unfold parseXmlStep
    rw [htag]
    simp only [hend]
  refine ⟨hstep, fun top rest hs => ?_, fun hs => ?_⟩
  · rw [hstep, hs]
    simp
  · rw [hstep, hs]
    simp

/-- Witness for C2 amended: a single end-element chunk processed from a state
whose stack is already empty leaves the stack empty and succeeds. -/
theorem end_element_pops_or_ignores_witness :
    parseXmlStep endElemBuf ⟨["a"], [], [⟨"manifest", [], []⟩], []⟩ 0 =
      .ok (some (⟨["a"], [], [⟨"manifest", [], []⟩], []⟩, 24)) :=
  (end_element_pops_or_ignores endElemBuf ⟨["a"], [], [⟨"manifest", [], []⟩], []⟩
      0 2 "a" 24 rfl rfl).2.2 rfl

/-- C3 counterexample: the buffers `[0x04, 0x01]` and `[0x00, 0x02]` consist
of a single 2-byte tag decoding to the known chunk types `ResXmlCDataType`
(0x0104) and `ResTablePackageType` (0x0200).  The claim predicts that a
matching chunk-body decoder re-validates the full 8-byte header, which on a
2-byte buffer must fail; the code instead skips these chunk types as no-ops,
consuming only the tag, and the decode succeeds with the untouched initial
state. -/
theorem dispatch_skip_counterexample :
    parse_xml [0x04, 0x01] = .ok initState ∧ parse_xml [0x00, 0x02] = .ok initState :=
  ⟨rfl, rfl⟩

/-- C3 amended: in the dispatch loop of `parse_xml`, a known tag is handed to
a chunk-body decoder only for the string pool, the resource table, the XML
header, start/end namespace, start/end element and the resource map; the
Null type and also `ResXmlCDataType`, `ResXmlLastChunkType` and the four
resource-table sub-types are skipped as no-ops consuming only the 2 tag
bytes; a 2-byte value matching no known `ChunkType` is a fatal decode
failure. -/
theorem dispatch_loop_behavior (b : Buf) (st : ParseState) (pos : Nat) :
    (∀ v p2, readU16 b pos = .ok (v, p2) → ChunkType.ofTag v = none →
      parseXmlStep b st pos = .error (.unknownChunkType v)) ∧
    (∀ ct p2, ChunkType.parse_block_type b pos = .ok (ct, p2) →
      ((ct = .ResNullType ∨ ct = .ResXmlCDataType ∨ ct = .ResXmlLastChunkType ∨
        ct = .ResTablePackageType ∨ ct = .ResTableTypeType ∨
        ct = .ResTableTypeSpecType ∨ ct = .ResTableLibraryType) →
        parseXmlStep b st pos = .ok (some (st, p2))) ∧
      (ct = .ResStringPoolType → parseXmlStep b st pos =
        match StringPool.from_buff b p2 st.global_strings with
        | .error e => .error e
        | .ok (_pool, g1, p3) => .ok (some ({ st with global_strings := g1 }, p3))) ∧
      (ct = .ResTableType → parseXmlStep b st pos =
        match ResTable.parse b p2 with
        | .error e => .error e
        | .ok p3 => .ok (some (st, p3))) ∧
      (ct = .ResXmlType → parseXmlStep b st pos =
        match ChunkHeader.from_buff b (p2 - 2) .ResXmlType with
        | .error e => .error e
        | .ok (_header, p3) => .ok (some (st, p3))) ∧
      (ct = .ResXmlStartNamespaceType → parseXmlStep b st pos =
        match parse_start_namespace b p2 st.global_strings st.namespace_prefixes with
        | .error e => .error e
        | .ok (ns1, p3) => .ok (some ({ st with namespace_prefixes := ns1 }, p3))) ∧
      (ct = .ResXmlEndNamespaceType → parseXmlStep b st pos =
        match parse_end_namespace b p2 with
        | .error e => .error e
        | .ok p3 => .ok (some (st, p3))) ∧
      (ct = .ResXmlStartElementType → parseXmlStep b st pos =
        match parse_start_element b p2 st.global_strings st.namespace_prefixes with
        | .error e => .error e
        | .ok ((element_type, attrs), p3) =>
          match handle_start_element st element_type attrs with
          | .error e => .error e
          | .ok st1 => .ok (some (st1, p3))) ∧
      (ct = .ResXmlEndElementType → parseXmlStep b st pos =
        match parse_end_element b p2 st.global_strings with
        | .error e => .error e
        | .ok (_name, p3) => .ok (some ({ st with stack := st.stack.tail }, p3))) ∧
      (ct = .ResXmlResourceMapType → parseXmlStep b st pos =
        match ResourceMap.from_buff b p2 with
        | .error e => .error e
        | .ok (_map, p3) => .ok (some (st, p3)))) := by
  constructor
  · intro v p2 hread hofTag
    unfold parseXmlStep ChunkType.parse_block_type
    rw [hread]
    simp only [hofTag]
  · intro ct p2 htag
    refine ⟨fun hct => ?_, fun hct => ?_, fun hct => ?_, fun hct => ?_, fun hct => ?_,
      fun hct => ?_, fun hct => ?_, fun hct => ?_, fun hct => ?_⟩ <;>
      first
        | (rcases hct with hct | hct | hct | hct | hct | hct | hct <;>
            subst hct <;> (unfold parseXmlStep; rw [htag]))
        | (subst hct; unfold parseXmlStep; rw [htag])

/-- Witness for C3 amended: a lone `ResXmlLastChunkType` tag is skipped with
only the 2 tag bytes consumed and the state unchanged. -/
theorem dispatch_loop_behavior_witness :
    parseXmlStep [0x7f, 0x01] initState 0 = .ok (some (initState, 2)) :=
  ((dispatch_loop_behavior [0x7f, 0x01] initState 0).2 .ResXmlLastChunkType 2 rfl).1
    (Or.inr (Or.inr (Or.inl rfl)))

/-- C6: `StringPool::from_buff` extends the caller's global string list only
by appending — every entry present before the call is unchanged and keeps its
index — and it appends exactly the decoded entries with positive declared
length, in on-disk offset order; entries with declared length 0 are not
appended. -/
theorem string_pool_appends (b : Buf) (pos : Nat) (g : List String)
    (sp : StringPool) (g1 : List String) (p1 : Nat)
    (h : StringPool.from_buff b pos g = .ok (sp, g1, p1)) :
    ∃ opts, entriesOpts b sp.is_utf8 (pos - 2 + sp.strings_start) sp.strings_offsets =
        .ok opts ∧ g1 = g ++ opts.filterMap id := by
  simp only [StringPool.from_buff] at h
  split at h
  · exact absurd h (by simp)
  split at h
  · exact absurd h (by simp)
  split at h
  · exact absurd h (by simp)
  split at h
  · exact absurd h (by simp)
  split at h
  · exact absurd h (by simp)
  split at h
  · exact absurd h (by simp)
  split at h
  · exact absurd h (by simp)
  split at h
  · exact absurd h (by simp)
  split at h
  · exact absurd h (by simp)
  rename_i hdec
  injection h with h
  injection h with hsp h
  injection h with hg hp
  subst hsp
  subst hg
  obtain ⟨opts, hm, hg2⟩ := decode_strings_append b _ _ _ _ _ _ _ hdec
  exact ⟨opts, hm, hg2⟩

/-- Witness for C6 at the byte input of the repository's own
`test_string_pool_parse_utf16` test: starting from an empty global list, the
pool appends exactly `"Hello"` and `"World"` in offset order. -/
theorem string_pool_appends_witness :
    ∃ opts, entriesOpts helloWorldBuf false 36 [0, 14] = .ok opts ∧
      ["Hello", "World"] = [] ++ opts.filterMap id :=
  string_pool_appends helloWorldBuf 2 []
    ⟨⟨.ResStringPoolType, 8, 128⟩, 2, 0, true, false, 36, 20, [0, 14], [],
      ["Hello", "World"]⟩
    ["Hello", "World"] 62 (by rfl)

end Axml
